import Mathlib

/-!
Verification of the Vast.ai instance-selection pipeline implemented in
`scripts/vastai_launcher.py`: constraint filtering (`filter_offers`),
offer scoring (`score_offer`), best-offer selection (`select_best_offer`),
launch-environment construction (`build_env_vars`) and the start-up
validation performed by `main`.

Marketplace offers arrive as loosely structured JSON records, so every
field an offer may or may not carry is modelled as an `Option`, and each
read of a field uses the same default value as the corresponding
`dict.get` call in the source.  Decimal quantities are modelled as
rationals.  The one computation in the pipeline that can raise — the float
division by a zero price ceiling inside `score_offer` — is modelled with
`Option`: `none` stands for the raised `ZeroDivisionError`.  Python's
`list.sort` is stable; the in-place descending sort used by
`select_best_offer` is modelled by a stable insertion sort.
-/

namespace VastaiLauncher

/-- A marketplace offer record; `none` models an absent key. -/
structure Offer where
  dph_total : Option ℚ := none
  reliability2 : Option ℚ := none
  disk_space : Option ℚ := none
  gpu_name : Option String := none
  inet_down : Option ℚ := none
  inet_up : Option ℚ := none
  num_gpus : Option ℕ := none
  rentable : Option Bool := none
  deriving DecidableEq

/-- The `env_vars` dictionary of `Config`; only these five keys are ever
read by `build_env_vars`, each via `dict.get`, so `none` models absence. -/
structure EnvVars where
  wandb_key : Option String := none
  aws_key : Option String := none
  aws_secret : Option String := none
  aws_region : Option String := none
  s3_path : Option String := none
  deriving DecidableEq

/-- The `Config` dataclass with its source default values. -/
structure Config where
  api_key : String := ""
  docker_image : String := "pytorch/pytorch:2.1.0-cuda12.1-cudnn8-runtime"
  max_price_per_hour : ℚ := 2
  min_reliability : ℚ := 9/10
  min_disk_space : ℚ := 50
  min_inet_down : ℚ := 100
  min_inet_up : ℚ := 100
  num_gpus : ℕ := 1
  preferred_gpus : List String := ["RTX 4090"]
  disk_space : ℚ := 50
  env_vars : EnvVars := {}
  config_file : String := "configs/config.yaml"
  extra_args : String := ""
  deriving DecidableEq

/-- The per-offer condition of the `if` inside the loop of `filter_offers`,
with the `offer.get(...)` defaults of the source. -/
def offerPasses (offer : Offer) (cfg : Config) : Bool :=
  let price := offer.dph_total.getD 999
  let disk_space := offer.disk_space.getD 0
  let gpu_name := offer.gpu_name.getD ""
  let inet_down := offer.inet_down.getD 0
  let inet_up := offer.inet_up.getD 0
  let num_gpus := offer.num_gpus.getD 1
  decide (price ≤ cfg.max_price_per_hour) && decide (num_gpus = cfg.num_gpus) &&
    decide (disk_space ≥ cfg.min_disk_space) && decide (gpu_name ∈ cfg.preferred_gpus) &&
    decide (inet_down ≥ cfg.min_inet_down) && decide (inet_up ≥ cfg.min_inet_up) &&
    offer.rentable.getD false

/-- `filter_offers`: the loop appends, in input order, exactly the offers
whose condition holds. -/
def filter_offers (offers : List Offer) (cfg : Config) : List Offer :=
  offers.filter (fun o => offerPasses o cfg)

/-- The value `score_offer` computes when the division does not raise. -/
def scoreQ (offer : Offer) (cfg : Config) : ℚ :=
  let price := offer.dph_total.getD 999
  let reliability := offer.reliability2.getD 0
  let price_score := max 0 (30 * (1 - price / cfg.max_price_per_hour))
  price_score + reliability * 15

/-- `score_offer`; `none` models the `ZeroDivisionError` raised by
`price / cfg.max_price_per_hour` when the ceiling is exactly zero. -/
def score_offer (offer : Offer) (cfg : Config) : Option ℚ :=
  if cfg.max_price_per_hour = 0 then none else some (scoreQ offer cfg)

/-- The list comprehension `[(offer, score_offer(offer, cfg)) for offer in
valid_offers]`; the first raised exception aborts the whole computation. -/
def scoreAll (cfg : Config) : List Offer → Option (List (Offer × ℚ))
  | [] => some []
  | o :: rest =>
    match score_offer o cfg, scoreAll cfg rest with
    | some s, some tail => some ((o, s) :: tail)
    | _, _ => none

/-- Insert into a list sorted by descending score, after every element of
score at least as large that is already present (stable position). -/
def insertDesc (x : Offer × ℚ) : List (Offer × ℚ) → List (Offer × ℚ)
  | [] => [x]
  | y :: ys => if y.2 ≤ x.2 then x :: y :: ys else y :: insertDesc x ys

/-- Stable descending-by-score sort, the model of the source's
`scored.sort(key=lambda x: x[1], reverse=True)` (Python's sort is stable
and `reverse=True` preserves the order of equal keys). -/
def sortDesc : List (Offer × ℚ) → List (Offer × ℚ)
  | [] => []
  | x :: xs => insertDesc x (sortDesc xs)

/-- `select_best_offer`.  Outer `none` models a raised exception;
`some none` models Python's `None` (no matching offer). -/
def select_best_offer (offers : List Offer) (cfg : Config) : Option (Option Offer) :=
  let valid_offers := filter_offers offers cfg
  if valid_offers.isEmpty then some none
  else
    match scoreAll cfg valid_offers with
    | none => none
    | some scored => some ((sortDesc scored).head?.map Prod.fst)

/-- The `env` dictionary literal built first inside `build_env_vars`,
as an insertion-ordered association list (all eight keys are distinct). -/
def raw_env (cfg : Config) (instance_id : String) : List (String × String) :=
  [("WANDB_API_KEY", cfg.env_vars.wandb_key.getD ""),
   ("AWS_ACCESS_KEY_ID", cfg.env_vars.aws_key.getD ""),
   ("AWS_SECRET_ACCESS_KEY", cfg.env_vars.aws_secret.getD ""),
   ("AWS_DEFAULT_REGION", cfg.env_vars.aws_region.getD "ap-northeast-2"),
   ("S3_DATA_PATH", cfg.env_vars.s3_path.getD ""),
   ("VAST_API_KEY", cfg.api_key),
   ("CONTAINER_ID", instance_id),
   ("CONFIG_FILE", cfg.config_file)]

/-- `build_env_vars`: the comprehension `{k: v for k, v in env.items() if v}`
keeps exactly the entries whose value is a non-empty string. -/
def build_env_vars (cfg : Config) (instance_id : String := "") : List (String × String) :=
  (raw_env cfg instance_id).filter (fun kv => kv.2 ≠ "")

/-- The `missing` list computed at the top of `main`: the only start-up
validation the program performs (API keys; the price ceiling is not
inspected). -/
def missing_env_vars (api_key wandb_key : String) : List String :=
  (if api_key = "" then ["VAST_API_KEY"] else []) ++
    (if wandb_key = "" then ["WANDB_API_KEY"] else [])

/-- All constraint-relevant fields of an offer are present. -/
def Offer.fieldsPresent (o : Offer) : Prop :=
  o.dph_total.isSome ∧ o.num_gpus.isSome ∧ o.disk_space.isSome ∧
    o.gpu_name.isSome ∧ o.inet_down.isSome ∧ o.inet_up.isSome ∧ o.rentable.isSome

instance (o : Offer) : Decidable o.fieldsPresent := by
  unfold Offer.fieldsPresent; infer_instance

/-- Eligibility written from the specification's words (section 4.1): an
offer passes iff all constraint-relevant fields are present and the
conjunction of constraints holds on their values. -/
def specEligibleB (o : Offer) (cfg : Config) : Bool :=
  match o.dph_total, o.num_gpus, o.disk_space, o.gpu_name, o.inet_down, o.inet_up, o.rentable with
  | some p, some n, some d, some g, some dn, some u, some r =>
    decide (p ≤ cfg.max_price_per_hour) && decide (n = cfg.num_gpus) &&
      decide (d ≥ cfg.min_disk_space) && decide (g ∈ cfg.preferred_gpus) &&
      decide (dn ≥ cfg.min_inet_down) && decide (u ≥ cfg.min_inet_up) && r
  | _, _, _, _, _, _, _ => false

/-- The earliest element of maximal score, the specification's description
of the selection winner ("stable sort by score descending, earliest in the
original catalog order wins on ties"). -/
def firstArgmax : List (Offer × ℚ) → Option (Offer × ℚ)
  | [] => none
  | x :: xs =>
    match firstArgmax xs with
    | none => some x
    | some y => if x.2 < y.2 then some y else some x

/-- The default configuration; its requirement fields coincide with the
specification's end-to-end scenario (max price 2, one GPU, 50 GB disk,
100 Mbps each way, acceptable GPU names {"RTX 4090"}). -/
def cfg0 : Config := {}

/-- Offer A of the specification's end-to-end scenario. -/
def offerA : Offer :=
  { dph_total := some 1, reliability2 := some (19/20), disk_space := some 60,
    gpu_name := some "RTX 4090", inet_down := some 150, inet_up := some 150,
    num_gpus := some 1, rentable := some true }

/-- Offer B of the specification's end-to-end scenario. -/
def offerB : Offer := { offerA with dph_total := some (9/5), reliability2 := some (99/100) }

/-- Offer C of the specification's end-to-end scenario. -/
def offerC : Offer :=
  { offerA with dph_total := some (1/2), reliability2 := some (4/5), gpu_name := some "A100" }

/-- The scenario requirement set with acceptable GPU names {"H100"}. -/
def cfgH100 : Config := { preferred_gpus := ["H100"] }

/-- A configuration with a zero price ceiling and non-empty API key. -/
def cfgZero : Config := { api_key := "k", max_price_per_hour := 0 }

/-- An otherwise eligible offer whose `num_gpus` key is absent. -/
def oNoGpuCount : Offer := { offerA with num_gpus := none }

/-- An otherwise eligible offer whose `rentable` key is absent. -/
def oNoRentable : Offer := { offerA with rentable := none }

/-- An otherwise eligible offer with reliability 0. -/
def oLowRel : Offer := { offerA with reliability2 := some 0 }

/-- C1: on a catalog whose offers all carry the constraint-relevant fields,
`filter_offers` returns exactly the order-preserving subsequence of its
input whose members satisfy the conjunction of constraints (price at most
the ceiling, equality included; GPU count exactly equal; enough disk;
acceptable GPU name; enough bandwidth both ways; rentable true), and any
offer whose rentable flag is `false` is excluded whatever its other
fields. -/
theorem filter_offers_correct (offers : List Offer) (cfg : Config)
    (h : ∀ o ∈ offers, o.fieldsPresent) :
    filter_offers offers cfg = offers.filter (fun o => specEligibleB o cfg) ∧
    (filter_offers offers cfg).Sublist offers ∧
    ∀ o ∈ offers, o.rentable = some false → o ∉ filter_offers offers cfg := by
  refine ⟨List.filter_congr ?_, List.filter_sublist _, ?_⟩
  · intro o ho
    obtain ⟨h1, h2, h3, h4, h5, h6, h7⟩ := h o ho
    rw [Option.isSome_iff_exists] at h1 h2 h3 h4 h5 h6 h7
    obtain ⟨p, hp⟩ := h1; obtain ⟨n, hn⟩ := h2; obtain ⟨d, hd⟩ := h3
    obtain ⟨g, hg⟩ := h4; obtain ⟨dn, hdn⟩ := h5; obtain ⟨u, hu⟩ := h6
    obtain ⟨r, hr⟩ := h7
    simp only [offerPasses, specEligibleB, hp, hn, hd, hg, hdn, hu, hr, Option.getD_some]
  · intro o ho hrent hmem
    rw [filter_offers, List.mem_filter] at hmem
    simp [offerPasses, hrent] at hmem

/-- C1 witness: the scenario catalog has every field present, and the
theorem computes the filter on it. -/
theorem filter_offers_correct_witness :
    filter_offers [offerA, offerB, offerC] cfg0 =
      [offerA, offerB, offerC].filter (fun o => specEligibleB o cfg0) :=
  (filter_offers_correct [offerA, offerB, offerC] cfg0 (by with_unfolding_all decide)).1

/-- C4 counterexample: an offer lacking the constraint-relevant `num_gpus`
attribute (all its other fields present and acceptable) that the filter
nevertheless admits under the default requirement set, because the missing
GPU count defaults to 1, which equals the required count. -/
theorem filter_missing_field_admitted :
    oNoGpuCount.num_gpus = none ∧ oNoGpuCount ∈ filter_offers [oNoGpuCount] cfg0 := by
  with_unfolding_all decide

/-- C4 (amended): an offer missing `rentable` is always excluded; an offer
missing another constraint-relevant field receives the source's
conservative default (price 999, disk 0, GPU name "", bandwidths 0, GPU
count 1) and is excluded whenever the requirement set rejects that
default: ceiling below 999, required GPU count other than 1, positive
minimum disk, "" not an acceptable GPU name, positive minimum
bandwidths. -/
theorem filter_missing_defaults (offers : List Offer) (cfg : Config) (o : Offer) :
    (o.rentable = none → o ∉ filter_offers offers cfg) ∧
    (o.dph_total = none → cfg.max_price_per_hour < 999 → o ∉ filter_offers offers cfg) ∧
    (o.num_gpus = none → cfg.num_gpus ≠ 1 → o ∉ filter_offers offers cfg) ∧
    (o.disk_space = none → 0 < cfg.min_disk_space → o ∉ filter_offers offers cfg) ∧
    (o.gpu_name = none → "" ∉ cfg.preferred_gpus → o ∉ filter_offers offers cfg) ∧
    (o.inet_down = none → 0 < cfg.min_inet_down → o ∉ filter_offers offers cfg) ∧
    (o.inet_up = none → 0 < cfg.min_inet_up → o ∉ filter_offers offers cfg) := by
  refine ⟨?_, ?_, ?_, ?_, ?_, ?_, ?_⟩
  · intro h1 hmem
    rw [filter_offers, List.mem_filter] at hmem
    simp [offerPasses, h1] at hmem
  · intro h1 h2 hmem
    rw [filter_offers, List.mem_filter] at hmem
    simp [offerPasses, h1] at hmem
    obtain ⟨-, ⟨⟨⟨⟨⟨⟨hprice, -⟩, -⟩, -⟩, -⟩, -⟩, -⟩⟩ := hmem
    linarith
  · intro h1 h2 hmem
    rw [filter_offers, List.mem_filter] at hmem
    simp [offerPasses, h1] at hmem
    obtain ⟨-, ⟨⟨⟨⟨⟨⟨-, hnum⟩, -⟩, -⟩, -⟩, -⟩, -⟩⟩ := hmem
    exact h2 hnum.symm
  · intro h1 h2 hmem
    rw [filter_offers, List.mem_filter] at hmem
    simp [offerPasses, h1] at hmem
    obtain ⟨-, ⟨⟨⟨⟨⟨⟨-, -⟩, hdisk⟩, -⟩, -⟩, -⟩, -⟩⟩ := hmem
    linarith
  · intro h1 h2 hmem
    rw [filter_offers, List.mem_filter] at hmem
    simp [offerPasses, h1] at hmem
    obtain ⟨-, ⟨⟨⟨⟨⟨⟨-, -⟩, -⟩, hgpu⟩, -⟩, -⟩, -⟩⟩ := hmem
    exact h2 hgpu
  · intro h1 h2 hmem
    rw [filter_offers, List.mem_filter] at hmem
    simp [offerPasses, h1] at hmem
    obtain ⟨-, ⟨⟨⟨⟨⟨⟨-, -⟩, -⟩, -⟩, hdown⟩, -⟩, -⟩⟩ := hmem
    linarith
  · intro h1 h2 hmem
    rw [filter_offers, List.mem_filter] at hmem
    simp [offerPasses, h1] at hmem
    obtain ⟨-, ⟨⟨⟨⟨⟨⟨-, -⟩, -⟩, -⟩, -⟩, hup⟩, -⟩⟩ := hmem
    linarith

/-- C4 witness: an offer whose `rentable` key is absent is excluded. -/
theorem filter_missing_defaults_witness :
    oNoRentable ∉ filter_offers [oNoRentable] cfg0 :=
  (filter_missing_defaults [oNoRentable] cfg0 oNoRentable).1 rfl

/-- C5: evidence for the flagged discrepancy — an offer whose reliability
(0) is strictly below the default `min_reliability` threshold (0.9) still
passes `filter_offers`: the threshold is accepted as configuration but
never applied in filtering. -/
theorem min_reliability_not_enforced :
    oLowRel.reliability2.getD 0 < cfg0.min_reliability ∧
    filter_offers [oLowRel] cfg0 = [oLowRel] := by
  with_unfolding_all decide

/-- C6: whenever the filtered sequence is empty, `select_best_offer`
returns Python's `None` (modelled `some none`: a normal value, not a
raised exception). -/
theorem select_best_offer_empty (offers : List Offer) (cfg : Config)
    (h : filter_offers offers cfg = []) :
    select_best_offer offers cfg = some none := by
  simp [select_best_offer, h]

/-- C6 witness: the specification's second end-to-end scenario — the same
three-offer catalog against acceptable GPU names {"H100"} filters to the
empty list, and the selector returns `None`. -/
theorem select_best_offer_empty_witness :
    select_best_offer [offerA, offerB, offerC] cfgH100 = some none :=
  select_best_offer_empty [offerA, offerB, offerC] cfgH100 (by with_unfolding_all decide)

/-- C8: the program does not fail fast on a zero price ceiling — the only
start-up validation `main` performs checks the two API keys, so a
configuration with `max_price_per_hour = 0` and non-empty keys passes
validation (`missing` is empty), and the scorer itself then raises
`ZeroDivisionError` (modelled `none`) when invoked. -/
theorem zero_price_ceiling_not_validated :
    cfgZero.max_price_per_hour = 0 ∧
    missing_env_vars cfgZero.api_key "w" = [] ∧
    score_offer offerA cfgZero = none := by
  with_unfolding_all decide

theorem insertDesc_head (x : Offer × ℚ) (l : List (Offer × ℚ)) :
    (insertDesc x l).head? =
      some (match l.head? with
            | none => x
            | some y => if y.2 ≤ x.2 then x else y) := by
  cases l with
  | nil => rfl
  | cons y ys => by_cases h : y.2 ≤ x.2 <;> simp [insertDesc, h]

theorem sortDesc_head (l : List (Offer × ℚ)) : (sortDesc l).head? = firstArgmax l := by
  induction l with
  | nil => rfl
  | cons x xs ih =>
    rw [show sortDesc (x :: xs) = insertDesc x (sortDesc xs) from rfl, insertDesc_head, ih]
    cases h : firstArgmax xs with
    | none => simp [firstArgmax, h]
    | some y =>
      simp only [firstArgmax, h]
      rcases le_or_lt y.2 x.2 with h1 | h1
      · rw [if_pos h1, if_neg (not_lt.mpr h1)]
      · rw [if_neg (not_le.mpr h1), if_pos h1]

theorem firstArgmax_eq_none (l : List (Offer × ℚ)) : firstArgmax l = none ↔ l = [] := by
  cases l with
  | nil => simp [firstArgmax]
  | cons x xs =>
    simp only [firstArgmax]
    cases h : firstArgmax xs with
    | none => simp
    | some y => by_cases hxy : x.2 < y.2 <;> simp [hxy]

theorem firstArgmax_decomp :
    ∀ (l : List (Offer × ℚ)) (m : Offer × ℚ), firstArgmax l = some m →
      ∃ l₁ l₂, l = l₁ ++ m :: l₂ ∧ (∀ x ∈ l₁, x.2 < m.2) ∧ ∀ x ∈ l, x.2 ≤ m.2 := by
  intro l
  induction l with
  | nil => intro m h; cases h
  | cons x xs ih =>
    intro m h
    cases hxs : firstArgmax xs with
    | none =>
      have h' : some x = some m := by rw [firstArgmax, hxs] at h; exact h
      obtain rfl : x = m := Option.some.inj h'
      have hnil : xs = [] := (firstArgmax_eq_none xs).mp hxs
      subst hnil
      exact ⟨[], [], rfl, by simp, by simp⟩
    | some y =>
      have h' : (if x.2 < y.2 then some y else some x) = some m := by
        rw [firstArgmax, hxs] at h; exact h
      by_cases hxy : x.2 < y.2
      · rw [if_pos hxy] at h'
        obtain rfl : y = m := Option.some.inj h'
        obtain ⟨l₁, l₂, hdec, hlt, hle⟩ := ih y hxs
        refine ⟨x :: l₁, l₂, by rw [hdec, List.cons_append], ?_, ?_⟩
        · intro z hz
          rcases List.mem_cons.mp hz with rfl | hz'
          · exact hxy
          · exact hlt z hz'
        · intro z hz
          rcases List.mem_cons.mp hz with rfl | hz'
          · exact le_of_lt hxy
          · exact hle z hz'
      · rw [if_neg hxy] at h'
        obtain rfl : x = m := Option.some.inj h'
        obtain ⟨l₁, l₂, hdec, hlt, hle⟩ := ih y hxs
        refine ⟨[], xs, rfl, by simp, ?_⟩
        intro z hz
        rcases List.mem_cons.mp hz with rfl | hz'
        · exact le_refl _
        · exact le_trans (hle z hz') (not_lt.mp hxy)

theorem scoreAll_eq (cfg : Config) (hmp : cfg.max_price_per_hour ≠ 0) :
    ∀ l : List Offer, scoreAll cfg l = some (l.map (fun o => (o, scoreQ o cfg))) := by
  intro l
  induction l with
  | nil => rfl
  | cons x xs ih => simp [scoreAll, score_offer, hmp, ih]

theorem map_decomp {α β : Type} (f : α → β) :
    ∀ (l : List α) (s₁ s₂ : List β) (m : β), l.map f = s₁ ++ m :: s₂ →
      ∃ l₁ o l₂, l = l₁ ++ o :: l₂ ∧ l₁.map f = s₁ ∧ f o = m ∧ l₂.map f = s₂ := by
  intro l
  induction l with
  | nil =>
    intro s₁ s₂ m h
    rw [List.map_nil] at h
    cases s₁ <;> simp at h
  | cons x xs ih =>
    intro s₁ s₂ m h
    rw [List.map_cons] at h
    cases s₁ with
    | nil =>
      rw [List.nil_append] at h
      injection h with h1 h2
      exact ⟨[], x, xs, rfl, rfl, h1, h2⟩
    | cons a t =>
      rw [List.cons_append] at h
      injection h with h1 h2
      obtain ⟨l₁, o, l₂, hdec, hm1, hm2, hm3⟩ := ih t s₂ m h2
      exact ⟨x :: l₁, o, l₂, by rw [hdec, List.cons_append], by rw [List.map_cons, hm1, h1], hm2, hm3⟩

/-- C2: when the filtered list is non-empty (and the price ceiling is
non-zero, so that scoring does not raise), `select_best_offer` returns an
offer, and any offer it returns splits the filtered list — which is the
catalog-order subsequence of surviving offers — as `l₁ ++ o :: l₂` where
every survivor scores at most `o` and every survivor strictly before `o`
scores strictly below it: `o` is the earliest survivor of maximal score,
the stable-descending-sort winner. -/
theorem select_best_offer_spec (offers : List Offer) (cfg : Config)
    (hmp : cfg.max_price_per_hour ≠ 0) (hne : filter_offers offers cfg ≠ []) :
    (∃ o, select_best_offer offers cfg = some (some o)) ∧
    ∀ o, select_best_offer offers cfg = some (some o) →
      ∃ l₁ l₂, filter_offers offers cfg = l₁ ++ o :: l₂ ∧
        (∀ x ∈ filter_offers offers cfg, scoreQ x cfg ≤ scoreQ o cfg) ∧
        ∀ x ∈ l₁, scoreQ x cfg < scoreQ o cfg := by
  have hie : (filter_offers offers cfg).isEmpty = false := List.isEmpty_eq_false.mpr hne
  have hsel : select_best_offer offers cfg =
      some ((sortDesc ((filter_offers offers cfg).map (fun o => (o, scoreQ o cfg)))).head?.map
        Prod.fst) := by
    simp [select_best_offer, hie, scoreAll_eq cfg hmp]
  obtain ⟨m, hm⟩ :
      ∃ m, firstArgmax ((filter_offers offers cfg).map (fun o => (o, scoreQ o cfg))) = some m := by
    cases hfa : firstArgmax ((filter_offers offers cfg).map (fun o => (o, scoreQ o cfg))) with
    | none =>
      rw [firstArgmax_eq_none, List.map_eq_nil_iff] at hfa
      exact absurd hfa hne
    | some m => exact ⟨m, rfl⟩
  rw [sortDesc_head, hm] at hsel
  simp only [Option.map_some'] at hsel
  obtain ⟨s₁, s₂, hdec, hlt, hle⟩ := firstArgmax_decomp _ m hm
  obtain ⟨l₁, o', l₂, hldec, hmap1, hfo, hmap2⟩ :=
    map_decomp (fun o => (o, scoreQ o cfg)) _ s₁ s₂ m hdec
  subst hfo
  refine ⟨⟨o', hsel⟩, ?_⟩
  intro o ho
  have ho' : o = o' := by
    have := ho.symm.trans hsel
    exact Option.some.inj (Option.some.inj this)
  subst ho'
  refine ⟨l₁, l₂, hldec, ?_, ?_⟩
  · intro x hx
    exact hle (x, scoreQ x cfg) (List.mem_map_of_mem _ hx)
  · intro x hx
    have hx' : (x, scoreQ x cfg) ∈ s₁ := by
      rw [← hmap1]
      exact List.mem_map_of_mem _ hx
    exact hlt _ hx'

/-- C2 witness: in the three-offer scenario the selected offer is A, and
the theorem yields that B (also surviving) scores at most A. -/
theorem select_best_offer_spec_witness : scoreQ offerB cfg0 ≤ scoreQ offerA cfg0 := by
  obtain ⟨l₁, l₂, hdec, hmax, hfirst⟩ :=
    (select_best_offer_spec [offerA, offerB, offerC] cfg0 (by with_unfolding_all decide)
      (by with_unfolding_all decide)).2 offerA (by with_unfolding_all decide)
  exact hmax offerB (by with_unfolding_all decide)

/-- C3: for an offer with non-negative price and reliability in [0,1] and
a positive price ceiling, `score_offer` returns exactly
`max(0, 30 * (1 - price/max_price_per_hour)) + reliability * 15`; in the
specification's three-offer scenario (ceiling 2.0), offer A scores 29.25,
offer B scores 17.85, and the selector returns A. -/
theorem score_offer_formula (o : Offer) (cfg : Config) (p r : ℚ)
    (hp : o.dph_total = some p) (hp0 : 0 ≤ p)
    (hr : o.reliability2 = some r) (hr0 : 0 ≤ r) (hr1 : r ≤ 1)
    (hmp : 0 < cfg.max_price_per_hour) :
    score_offer o cfg = some (max 0 (30 * (1 - p / cfg.max_price_per_hour)) + r * 15) ∧
    score_offer offerA cfg0 = some (29.25 : ℚ) ∧
    score_offer offerB cfg0 = some (17.85 : ℚ) ∧
    select_best_offer [offerA, offerB, offerC] cfg0 = some (some offerA) := by
  refine ⟨?_, ?_, ?_, ?_⟩
  · rw [score_offer, if_neg (ne_of_gt hmp)]
    simp [scoreQ, hp, hr]
  · norm_num [score_offer, scoreQ, cfg0, offerA]
  · norm_num [score_offer, scoreQ, cfg0, offerB, offerA]
  · with_unfolding_all decide

/-- C3 witness: the formula instantiated on offer A of the scenario. -/
theorem score_offer_formula_witness :
    score_offer offerA cfg0 =
      some (max 0 (30 * (1 - 1 / cfg0.max_price_per_hour)) + (19/20) * 15) :=
  (score_offer_formula offerA cfg0 1 (19/20) rfl (by norm_num) rfl (by norm_num)
    (by norm_num) (by with_unfolding_all decide)).1

/-- C9: with a positive price ceiling, the score is monotonically
non-increasing in price and non-decreasing in reliability: for two offers
differing only in price the higher-priced one scores no more, and for two
offers differing only in reliability the higher-reliability one scores no
less. -/
theorem score_offer_monotone (o : Offer) (cfg : Config) (hmp : 0 < cfg.max_price_per_hour) :
    (∀ p1 p2 s1 s2, p1 ≤ p2 →
        score_offer { o with dph_total := some p1 } cfg = some s1 →
        score_offer { o with dph_total := some p2 } cfg = some s2 → s2 ≤ s1) ∧
    (∀ r1 r2 s1 s2, r1 ≤ r2 →
        score_offer { o with reliability2 := some r1 } cfg = some s1 →
        score_offer { o with reliability2 := some r2 } cfg = some s2 → s1 ≤ s2) := by
  have hne := ne_of_gt hmp
  constructor
  · intro p1 p2 s1 s2 hp h1 h2
    rw [score_offer, if_neg hne] at h1 h2
    have e1 := Option.some.inj h1
    have e2 := Option.some.inj h2
    subst e1; subst e2
    simp only [scoreQ, Option.getD_some]
    have hdiv : p1 / cfg.max_price_per_hour ≤ p2 / cfg.max_price_per_hour :=
      div_le_div_of_nonneg_right hp (le_of_lt hmp)
    have h30 : 30 * (1 - p2 / cfg.max_price_per_hour) ≤
        30 * (1 - p1 / cfg.max_price_per_hour) := by linarith
    have hmax := max_le_max (le_refl (0 : ℚ)) h30
    linarith
  · intro r1 r2 s1 s2 hr h1 h2
    rw [score_offer, if_neg hne] at h1 h2
    have e1 := Option.some.inj h1
    have e2 := Option.some.inj h2
    subst e1; subst e2
    simp only [scoreQ, Option.getD_some]
    have h15 : r1 * 15 ≤ r2 * 15 := by linarith
    linarith

/-- C9 witness: raising offer A's price from 1 to 2 lowers its score from
117/4 to 57/4. -/
theorem score_offer_monotone_witness :
    score_offer { offerA with dph_total := some 2 } cfg0 = some (57/4) ∧
    (57/4 : ℚ) ≤ 117/4 :=
  ⟨by with_unfolding_all decide,
    (score_offer_monotone offerA cfg0 (by with_unfolding_all decide)).1 1 2 (117/4) (57/4)
      (by norm_num) (by with_unfolding_all decide) (by with_unfolding_all decide)⟩

theorem lookup_eq_none_of_not_mem (k : String) :
    ∀ l : List (String × String), k ∉ l.map Prod.fst → l.lookup k = none := by
  intro l
  induction l with
  | nil => intro _; rfl
  | cons a t ih =>
    intro h
    obtain ⟨a1, a2⟩ := a
    simp only [List.map_cons, List.mem_cons, not_or] at h
    rw [List.lookup_cons]
    have hbeq : (k == a1) = false := beq_eq_false_iff_ne.mpr h.1
    rw [hbeq]
    exact ih h.2

theorem lookup_filter_val :
    ∀ l : List (String × String), (l.map Prod.fst).Nodup → ∀ k : String,
      (l.filter (fun kv => kv.2 ≠ "")).lookup k =
        (l.lookup k).bind (fun v => if v = "" then none else some v) := by
  intro l
  induction l with
  | nil => intro _ k; rfl
  | cons a t ih =>
    intro hnd k
    obtain ⟨a1, a2⟩ := a
    simp only [List.map_cons, List.nodup_cons] at hnd
    obtain ⟨hk1, hnd'⟩ := hnd
    by_cases hkeq : k = a1
    · subst hkeq
      by_cases hval : a2 = ""
      · subst hval
        have hfil : ((k, "") :: t).filter (fun kv => kv.2 ≠ "") =
            t.filter (fun kv => kv.2 ≠ "") := by simp [List.filter_cons]
        rw [hfil, List.lookup_cons, beq_self_eq_true]
        have hnone : (t.filter (fun kv => kv.2 ≠ "")).lookup k = none := by
          apply lookup_eq_none_of_not_mem
          intro hc
          apply hk1
          obtain ⟨kv, hkv, hfst⟩ := List.mem_map.mp hc
          exact List.mem_map.mpr ⟨kv, List.mem_of_mem_filter hkv, hfst⟩
        rw [hnone]
        simp
      · have hfil : ((k, a2) :: t).filter (fun kv => kv.2 ≠ "") =
            (k, a2) :: t.filter (fun kv => kv.2 ≠ "") := by simp [List.filter_cons, hval]
        rw [hfil, List.lookup_cons, List.lookup_cons, beq_self_eq_true]
        simp [hval]
    · have hbeq : (k == a1) = false := beq_eq_false_iff_ne.mpr hkeq
      by_cases hval : a2 = ""
      · have hfil : ((a1, a2) :: t).filter (fun kv => kv.2 ≠ "") =
            t.filter (fun kv => kv.2 ≠ "") := by simp [List.filter_cons, hval]
        rw [hfil, List.lookup_cons, hbeq]
        exact ih hnd' k
      · have hfil : ((a1, a2) :: t).filter (fun kv => kv.2 ≠ "") =
            (a1, a2) :: t.filter (fun kv => kv.2 ≠ "") := by simp [List.filter_cons, hval]
        rw [hfil, List.lookup_cons, List.lookup_cons, hbeq]
        exact ih hnd' k

/-- C7: for every configuration and instance identifier, and each of the
eight fixed environment keys independently, the launch environment map
contains the key exactly when the value `build_env_vars` reads for it is a
non-empty string — an empty source value drops the key entirely, never
emitting an empty entry. -/
theorem build_env_vars_omits_empty (cfg : Config) (iid : String) :
    (build_env_vars cfg iid).lookup "WANDB_API_KEY" =
      (if cfg.env_vars.wandb_key.getD "" = "" then none
       else some (cfg.env_vars.wandb_key.getD "")) ∧
    (build_env_vars cfg iid).lookup "AWS_ACCESS_KEY_ID" =
      (if cfg.env_vars.aws_key.getD "" = "" then none
       else some (cfg.env_vars.aws_key.getD "")) ∧
    (build_env_vars cfg iid).lookup "AWS_SECRET_ACCESS_KEY" =
      (if cfg.env_vars.aws_secret.getD "" = "" then none
       else some (cfg.env_vars.aws_secret.getD "")) ∧
    (build_env_vars cfg iid).lookup "AWS_DEFAULT_REGION" =
      (if cfg.env_vars.aws_region.getD "ap-northeast-2" = "" then none
       else some (cfg.env_vars.aws_region.getD "ap-northeast-2")) ∧
    (build_env_vars cfg iid).lookup "S3_DATA_PATH" =
      (if cfg.env_vars.s3_path.getD "" = "" then none
       else some (cfg.env_vars.s3_path.getD "")) ∧
    (build_env_vars cfg iid).lookup "VAST_API_KEY" =
      (if cfg.api_key = "" then none else some cfg.api_key) ∧
    (build_env_vars cfg iid).lookup "CONTAINER_ID" =
      (if iid = "" then none else some iid) ∧
    (build_env_vars cfg iid).lookup "CONFIG_FILE" =
      (if cfg.config_file = "" then none else some cfg.config_file) := by
  have hkeys : (raw_env cfg iid).map Prod.fst =
      ["WANDB_API_KEY", "AWS_ACCESS_KEY_ID", "AWS_SECRET_ACCESS_KEY", "AWS_DEFAULT_REGION",
       "S3_DATA_PATH", "VAST_API_KEY", "CONTAINER_ID", "CONFIG_FILE"] := rfl
  have hnd : ((raw_env cfg iid).map Prod.fst).Nodup := by rw [hkeys]; decide
  refine ⟨?_, ?_, ?_, ?_, ?_, ?_, ?_, ?_⟩ <;>
    rw [build_env_vars, lookup_filter_val (raw_env cfg iid) hnd] <;> rfl

/-- C10: a configuration with no `aws_region` entry at all still yields an
`AWS_DEFAULT_REGION` entry with the hard-coded value `ap-northeast-2`; an
explicitly non-empty region is passed through; only an explicitly empty
region value makes the key disappear. -/
theorem build_env_vars_region_default (cfg : Config) (iid : String) :
    (cfg.env_vars.aws_region = none →
      ("AWS_DEFAULT_REGION", "ap-northeast-2") ∈ build_env_vars cfg iid) ∧
    (∀ v, cfg.env_vars.aws_region = some v → v ≠ "" →
      ("AWS_DEFAULT_REGION", v) ∈ build_env_vars cfg iid) ∧
    (cfg.env_vars.aws_region = some "" →
      ∀ v, ("AWS_DEFAULT_REGION", v) ∉ build_env_vars cfg iid) := by
  refine ⟨?_, ?_, ?_⟩
  · intro h
    rw [build_env_vars, List.mem_filter]
    refine ⟨?_, by decide⟩
    rw [raw_env, h]
    simp
  · intro v h hv
    rw [build_env_vars, List.mem_filter]
    refine ⟨?_, by simp [hv]⟩
    rw [raw_env, h]
    simp
  · intro h v hmem
    rw [build_env_vars, List.mem_filter, raw_env, h] at hmem
    obtain ⟨hmem1, hmem2⟩ := hmem
    simp only [decide_eq_true_eq] at hmem2
    simp at hmem1
    rcases hmem1 with h1 | h1 | h1 | h1 | h1 | h1 | h1 | h1 <;> simp_all

/-- C10 witness: the default configuration carries no `aws_region` entry,
and the built environment contains the hard-coded region. -/
theorem build_env_vars_region_default_witness :
    ("AWS_DEFAULT_REGION", "ap-northeast-2") ∈ build_env_vars cfg0 "42" :=
  (build_env_vars_region_default cfg0 "42").1 rfl

end VastaiLauncher
